import Mathlib

/-!
Verification of the `vandijks/rss-feeds` feed-generator scripts.

Each generator in the repository is a fetch / parse / generate / save
pipeline over site-specific HTML.  This file gives a shallow embedding of
the parts of that code the verified properties talk about:

* Python string helpers (`strip`, `split`, `join`, `title`, `replace`,
  substring tests) are re-implemented over `List Char`;
* `datetime` values in a fixed timezone are represented as seconds since
  the Unix epoch (`Int`), computed from calendar fields by the usual
  Gregorian day count, together with a flag recording whether
  `tzinfo=pytz.UTC` is attached;
* CPython's built-in `hash` for `str` depends on a per-process random
  seed (`PYTHONHASHSEED`), so every function of the repository that calls
  `hash` is embedded with the process's string-hash function as an
  explicit parameter `pyHash : String → Int`;
* BeautifulSoup documents are embedded as a tree of element/text nodes
  (mutual inductive, so that all traversals stay kernel-computable), and
  each CSS selector the scripts use is embedded as a predicate on nodes;
* network, browser and filesystem effects are abstracted as explicit
  parameters (`Except`-valued step results, a clock for `datetime.now`,
  an optional date-fetching driver).
-/

/-! ### Python string primitives, over `List Char` -/

/-- ASCII whitespace, as recognised by Python `str.strip` / `str.split`
on the inputs occurring here. -/
def isPyWs (c : Char) : Bool :=
  c == ' ' || c == '\t' || c == '\n' || c == '\r'

/-- Drop leading whitespace characters. -/
def dropLeadWs : List Char → List Char
  | [] => []
  | c :: cs => if isPyWs c then dropLeadWs cs else c :: cs

/-- Python `s.strip()` on the character list: trim whitespace at both ends. -/
def stripChars (cs : List Char) : List Char :=
  (dropLeadWs (dropLeadWs cs.reverse).reverse)

/-- Python `s.strip()`. -/
def pyStrip (s : String) : String :=
  String.mk (stripChars s.data)

/-- Python `s.split()` (no argument): split on whitespace runs, dropping
empty pieces.  `acc` is the word currently being accumulated, reversed. -/
def splitWsAux : List Char → List Char → List String
  | [], [] => []
  | [], acc => [String.mk acc.reverse]
  | c :: cs, acc =>
      if isPyWs c then
        match acc with
        | [] => splitWsAux cs []
        | _ => String.mk acc.reverse :: splitWsAux cs []
      else splitWsAux cs (c :: acc)

/-- Python `s.split()`. -/
def pySplitWs (s : String) : List String :=
  splitWsAux s.data []

/-- Python `sep.join(parts)` with a one-character view: join with `sep`. -/
def pyJoin (sep : String) : List String → String
  | [] => ""
  | [x] => x
  | x :: xs => x ++ sep ++ pyJoin sep xs

/-- Embeds `" ".join(s.split())`, the whitespace-collapsing idiom in `barrons.py`. -/
def collapseWs (s : String) : String :=
  pyJoin " " (pySplitWs s)

/-- Does `pat` occur as a prefix of `cs`? -/
def isPrefixChars : List Char → List Char → Bool
  | [], _ => true
  | _ :: _, [] => false
  | p :: ps, c :: cs => p == c && isPrefixChars ps cs

/-- Does `pat` occur as a (contiguous) substring of `cs`?
Python `pat in s`. -/
def containsChars (cs pat : List Char) : Bool :=
  match cs with
  | [] => isPrefixChars pat []
  | _ :: rest => isPrefixChars pat cs || containsChars rest pat

/-- Python `pat in s`. -/
def pyContains (s pat : String) : Bool :=
  containsChars s.data pat.data

/-- Python `s.startswith(p)`. -/
def pyStartsWith (s p : String) : Bool :=
  isPrefixChars p.data s.data

/-- Python `s.endswith(p)`. -/
def pyEndsWith (s p : String) : Bool :=
  isPrefixChars p.data.reverse s.data.reverse

/-- Replace every (non-overlapping, leftmost-first) occurrence of `pat`
by `rep`.  Structural recursion on a fuel that starts at the input
length; each step consumes at least one character, so the fuel never
runs out on the intended call. -/
def replaceAux (pat rep : List Char) : Nat → List Char → List Char
  | _, [] => []
  | 0, cs => cs
  | fuel + 1, c :: cs =>
      if !pat.isEmpty && isPrefixChars pat (c :: cs) then
        rep ++ replaceAux pat rep fuel (cs.drop (pat.length - 1))
      else
        c :: replaceAux pat rep fuel cs

/-- Python `s.replace(pat, rep)` (for the non-empty patterns used here). -/
def pyReplace (s pat rep : String) : String :=
  String.mk (replaceAux pat.data rep.data s.data.length s.data)

/-- Split on every occurrence of the single character `sep`, keeping empty
pieces; Python `s.split(sep)` for a one-character separator. -/
def splitOnCharAux (sep : Char) : List Char → List Char → List String
  | [], acc => [String.mk acc.reverse]
  | c :: cs, acc =>
      if c = sep then String.mk acc.reverse :: splitOnCharAux sep cs []
      else splitOnCharAux sep cs (c :: acc)

/-- Python `s.split(sep)` for a one-character separator `sep`. -/
def pySplitOn (s : String) (sep : Char) : List String :=
  splitOnCharAux sep s.data []

/-- Python `s.rstrip(chars)`: remove trailing characters drawn from the
set `chars` (note: a character set, not a suffix — so
`link.rstrip(".html")` strips any run of `.`, `h`, `t`, `m`, `l`). -/
def pyRstripSet (s : String) (chars : List Char) : String :=
  String.mk ((s.data.reverse.dropWhile (fun c => chars.contains c)).reverse)

/-- ASCII lower-casing of one character. -/
def lowerChar (c : Char) : Char :=
  if 'A' ≤ c ∧ c ≤ 'Z' then Char.ofNat (c.toNat + 32) else c

/-- ASCII upper-casing of one character. -/
def upperChar (c : Char) : Char :=
  if 'a' ≤ c ∧ c ≤ 'z' then Char.ofNat (c.toNat - 32) else c

/-- Python `s.lower()` (ASCII). -/
def pyLower (s : String) : String :=
  String.mk (s.data.map lowerChar)

def isAsciiAlpha (c : Char) : Bool :=
  decide ('a' ≤ c ∧ c ≤ 'z') || decide ('A' ≤ c ∧ c ≤ 'Z')

/-- Python `s.title()` (ASCII): the first letter of each maximal run of
letters is upper-cased, the rest lower-cased.  `prevAlpha` records
whether the previous character was a letter. -/
def titleChars (prevAlpha : Bool) : List Char → List Char
  | [] => []
  | c :: cs =>
      if isAsciiAlpha c then
        (if prevAlpha then lowerChar c else upperChar c) :: titleChars true cs
      else c :: titleChars false cs

/-- Python `s.title()` (ASCII). -/
def pyTitle (s : String) : String :=
  String.mk (titleChars false s.data)

/-- Python truthiness of a string: non-empty. -/
def pyTruthy (s : String) : Bool :=
  s != ""

/-! ### The `datetime` model

A timezone-aware UTC `datetime` is represented by its count of seconds
since the Unix epoch, plus a flag recording whether `tzinfo=pytz.UTC`
has been attached (`strptime` first returns a naive value).  All
datetimes occurring in these scripts are whole seconds. -/

structure PyDateTime where
  ts : Int
  utc : Bool
deriving DecidableEq, Repr

def isLeapYear (y : Nat) : Bool :=
  (y % 4 = 0 ∧ y % 100 ≠ 0) ∨ y % 400 = 0

/-- Cumulative days before month `m` (1-based) in a non-leap year. -/
def cumDaysBeforeMonth (m : Nat) : Nat :=
  [0, 0, 31, 59, 90, 120, 151, 181, 212, 243, 273, 304, 334].getD m 0

/-- Length of month `m` of year `y`, Gregorian calendar. -/
def daysInMonth (y m : Nat) : Nat :=
  if m = 2 then (if isLeapYear y then 29 else 28)
  else [0, 31, 28, 31, 30, 31, 30, 31, 31, 30, 31, 30, 31].getD m 0

/-- Days from 0001-01-01 to `y`-`m`-`d` (proleptic Gregorian, `y ≥ 1`),
as in `datetime.toordinal` minus one. -/
def daysFromCivil (y m d : Nat) : Nat :=
  365 * (y - 1) + (y - 1) / 4 - (y - 1) / 100 + (y - 1) / 400 +
    cumDaysBeforeMonth m +
    (if 2 < m ∧ isLeapYear y then 1 else 0) + (d - 1)

/-- Unix timestamp (seconds) of `datetime(y, mo, d, h, mi, s)` read in UTC. -/
def mkTs (y mo d h mi s : Nat) : Int :=
  86400 * ((daysFromCivil y mo d : Int) - (daysFromCivil 1970 1 1 : Int)) +
    3600 * (h : Int) + 60 * (mi : Int) + (s : Int)

/-- Embeds `datetime(y, mo, d, h, mi, s, tzinfo=pytz.UTC)`. -/
def mkUTC (y mo d h mi s : Nat) : PyDateTime :=
  { ts := mkTs y mo d h mi s, utc := true }

/-! ### `stable_fallback_date`

`barrons.py` / `noordhollandsdagblad_alkmaar.py`:

    def stable_fallback_date(identifier):
        hash_val = abs(hash(identifier)) % 730
        epoch = datetime(2024, 1, 1, 0, 0, 0, tzinfo=pytz.UTC)
        return epoch + timedelta(days=hash_val)

The archived `anthropic_news_blog.py` / `anthropic_red_blog.py` use the
same body with epoch `datetime(2023, 1, 1, 0, 0, 0, tzinfo=pytz.UTC)`.
CPython's `hash` on `str` is SipHash keyed by a per-process random seed
(`PYTHONHASHSEED`), so the embedding takes the process's string-hash
function `pyHash` as a parameter: one run of a script corresponds to one
choice of `pyHash`. -/

def stable_fallback_date (pyHash : String → Int) (identifier : String) : PyDateTime :=
  let hash_val : Nat := (pyHash identifier).natAbs % 730
  { ts := (mkUTC 2024 1 1 0 0 0).ts + 86400 * (hash_val : Int), utc := true }

/-- Embeds `stable_fallback_date` of `anthropic_news_blog.py` and
`anthropic_red_blog.py` (epoch 2023-01-01 UTC). -/
def stable_fallback_date_news (pyHash : String → Int) (identifier : String) : PyDateTime :=
  let hash_val : Nat := (pyHash identifier).natAbs % 730
  { ts := (mkUTC 2023 1 1 0 0 0).ts + 86400 * (hash_val : Int), utc := true }

/-! ### `datetime.strptime` for the candidate formats of the scripts

CPython's `strptime` compiles a format into a regular expression
(`_strptime.TimeRE`) and requires it to match the whole input.  Only the
directives `%B %b %d %m %Y`, literal characters, and whitespace (which
becomes `\s+`) occur in this repository's format lists; the embedding
below implements exactly those, with the same alternation preferences as
the CPython regex fragments:

    %d → 3[01]|[12]\d|0[1-9]|[1-9]| [1-9]
    %m → 1[0-2]|0[1-9]|[1-9]
    %Y → \d\d\d\d
    %B → full month names, %b → abbreviated month names (IGNORECASE)

Greedy `\s+` with later give-back is equivalent, for these formats, to
consuming the maximal whitespace run (the only token that could reclaim
a space is `%d`'s ` [1-9]` branch, which consumes the same characters
either way), so whitespace is matched greedily. -/

inductive FTok where
  | B
  | b
  | d
  | m
  | Y
  | lit (c : Char)
  | ws
deriving DecidableEq, Repr

/-- Fields accumulated by `strptime`; CPython defaults are
year 1900, month 1, day 1. -/
structure StrpAcc where
  year : Nat
  month : Nat
  day : Nat
deriving DecidableEq, Repr

def monthNamesFull : List String :=
  ["january", "february", "march", "april", "may", "june", "july",
   "august", "september", "october", "november", "december"]

def monthNamesAbbr : List String :=
  ["jan", "feb", "mar", "apr", "may", "jun", "jul", "aug", "sep", "oct",
   "nov", "dec"]

/-- Find the first month name (1-based index `idx`) that is a prefix of
the lower-cased input `lcs`; consume its length from the raw input `cs`. -/
def findMonth : List String → Nat → List Char → List Char → Option (Nat × List Char)
  | [], _, _, _ => none
  | n :: rest, idx, lcs, cs =>
      if isPrefixChars n.data lcs then some (idx, cs.drop n.data.length)
      else findMonth rest (idx + 1) lcs cs

def matchMonthFull (cs : List Char) : Option (Nat × List Char) :=
  findMonth monthNamesFull 1 (cs.map lowerChar) cs

def matchMonthAbbr (cs : List Char) : Option (Nat × List Char) :=
  findMonth monthNamesAbbr 1 (cs.map lowerChar) cs

def isDigitCh (c : Char) : Bool :=
  decide ('0' ≤ c ∧ c ≤ '9')

def digitVal (c : Char) : Nat :=
  c.toNat - 48

/-- Embeds `%d`, two-character branches `3[01]|[12]\d|0[1-9]`. -/
def cand2D : List Char → Option (Nat × List Char)
  | c1 :: c2 :: rest =>
      if (c1 == '3' && (c2 == '0' || c2 == '1')) ||
          ((c1 == '1' || c1 == '2') && isDigitCh c2) ||
          (c1 == '0' && isDigitCh c2 && c2 != '0') then
        some (10 * digitVal c1 + digitVal c2, rest)
      else none
  | _ => none

/-- Embeds `[1-9]`: a single non-zero digit. -/
def cand1D : List Char → Option (Nat × List Char)
  | c :: rest => if isDigitCh c && c != '0' then some (digitVal c, rest) else none
  | [] => none

/-- Embeds `%d`, last branch ` [1-9]`. -/
def candSpD : List Char → Option (Nat × List Char)
  | ' ' :: c :: rest =>
      if isDigitCh c && c != '0' then some (digitVal c, rest) else none
  | _ => none

/-- Embeds `%m`, two-character branches `1[0-2]|0[1-9]`. -/
def cand2M : List Char → Option (Nat × List Char)
  | c1 :: c2 :: rest =>
      if (c1 == '1' && (c2 == '0' || c2 == '1' || c2 == '2')) ||
          (c1 == '0' && isDigitCh c2 && c2 != '0') then
        some (10 * digitVal c1 + digitVal c2, rest)
      else none
  | _ => none

/-- Embeds `%Y`: exactly four digits. -/
def candY : List Char → Option (Nat × List Char)
  | c1 :: c2 :: c3 :: c4 :: rest =>
      if isDigitCh c1 && isDigitCh c2 && isDigitCh c3 && isDigitCh c4 then
        some (1000 * digitVal c1 + 100 * digitVal c2 + 10 * digitVal c3 +
          digitVal c4, rest)
      else none
  | _ => none

def countLeadWs : List Char → Nat
  | [] => 0
  | c :: cs => if isPyWs c then countLeadWs cs + 1 else 0

/-- Eager `Option` alternative (both branches already evaluated). -/
def optOr (a b : Option α) : Option α :=
  match a with
  | some x => some x
  | none => b

/-- Match a token list against the input, with the regex's alternation
preferences (earlier branches first, backtracking into later ones). -/
def matchToks : List FTok → List Char → StrpAcc → Option StrpAcc
  | [], cs, acc => if cs.isEmpty then some acc else none
  | .B :: rest, cs, acc =>
      match matchMonthFull cs with
      | some (mo, cs2) => matchToks rest cs2 { acc with month := mo }
      | none => none
  | .b :: rest, cs, acc =>
      match matchMonthAbbr cs with
      | some (mo, cs2) => matchToks rest cs2 { acc with month := mo }
      | none => none
  | .d :: rest, cs, acc =>
      optOr
        (match cand2D cs with
          | some (v, cs2) => matchToks rest cs2 { acc with day := v }
          | none => none)
        (optOr
          (match cand1D cs with
            | some (v, cs2) => matchToks rest cs2 { acc with day := v }
            | none => none)
          (match candSpD cs with
            | some (v, cs2) => matchToks rest cs2 { acc with day := v }
            | none => none))
  | .m :: rest, cs, acc =>
      optOr
        (match cand2M cs with
          | some (v, cs2) => matchToks rest cs2 { acc with month := v }
          | none => none)
        (match cand1D cs with
          | some (v, cs2) => matchToks rest cs2 { acc with month := v }
          | none => none)
  | .Y :: rest, cs, acc =>
      match candY cs with
      | some (v, cs2) => matchToks rest cs2 { acc with year := v }
      | none => none
  | .lit ch :: rest, cs, acc =>
      match cs with
      | c :: cs2 => if c == ch then matchToks rest cs2 acc else none
      | [] => none
  | .ws :: rest, cs, acc =>
      let n := countLeadWs cs
      if n == 0 then none else matchToks rest (cs.drop n) acc

/-- Embeds `datetime.strptime(date_text, fmt)` for the formats used here,
returning `none` where CPython raises `ValueError` (no regex match, or
the matched fields do not form a valid date).  The result is a naive
datetime (`utc := false`). -/
def strptime (fmt : List FTok) (date_text : String) : Option PyDateTime :=
  match matchToks fmt date_text.data { year := 1900, month := 1, day := 1 } with
  | none => none
  | some acc =>
      if 1 ≤ acc.year ∧ acc.day ≤ daysInMonth acc.year acc.month then
        some { ts := mkTs acc.year acc.month acc.day 0 0 0, utc := false }
      else none

/-- Format `"%B %d, %Y"`. -/
def fmtBdY : List FTok := [.B, .ws, .d, .lit ',', .ws, .Y]

/-- Format `"%b %d, %Y"`. -/
def fmtbdY : List FTok := [.b, .ws, .d, .lit ',', .ws, .Y]

/-- Format `"%B %Y"`. -/
def fmtBY : List FTok := [.B, .ws, .Y]

/-- Format `"%b %Y"`. -/
def fmtbY : List FTok := [.b, .ws, .Y]

/-- Format `"%b %d %Y"`. -/
def fmtbdY2 : List FTok := [.b, .ws, .d, .ws, .Y]

/-- Format `"%B %d %Y"`. -/
def fmtBdY2 : List FTok := [.B, .ws, .d, .ws, .Y]

/-- Format `"%Y-%m-%d"`. -/
def fmtYmd : List FTok := [.Y, .lit '-', .m, .lit '-', .d]

/-- Format `"%m/%d/%Y"`. -/
def fmtmdY : List FTok := [.m, .lit '/', .d, .lit '/', .Y]

/-! ### `parse_date` of `anthropic_red_blog.py`

    date_formats = ["%B %d, %Y", "%b %d, %Y", "%B %Y", "%b %Y"]
    for date_format in date_formats:
        try:
            date = datetime.strptime(date_text, date_format)
            return date.replace(tzinfo=pytz.UTC)
        except ValueError:
            continue
    return None
-/

def red_date_formats : List (List FTok) := [fmtBdY, fmtbdY, fmtBY, fmtbY]

/-- The `for date_format in date_formats: try ... except: continue` loop. -/
def parse_date_loop : List (List FTok) → String → Option PyDateTime
  | [], _ => none
  | f :: rest, s =>
      match strptime f s with
      | some dt => some { dt with utc := true }
      | none => parse_date_loop rest s

/-- Embeds `parse_date` of `anthropic_red_blog.py`. -/
def parse_date (date_text : String) : Option PyDateTime :=
  parse_date_loop red_date_formats date_text

/-! ### The document model

BeautifulSoup documents are embedded as trees of element and text
nodes.  A mutual inductive (instead of `List` nesting) keeps every
traversal structurally recursive, hence computable by the kernel.  The
`BeautifulSoup` object itself is represented as a synthetic root element
with tag `"[document]"`, which no selector of these scripts matches, so
`soup.select(...)` coincides with searching the root's descendants. -/

mutual
inductive HNode where
  | elem (tag : String) (attrs : List (String × String)) (children : HNodeList)
  | text (s : String)
inductive HNodeList where
  | nil
  | cons (n : HNode) (ns : HNodeList)
end

def HNodeList.ofList : List HNode → HNodeList
  | [] => .nil
  | n :: ns => .cons n (HNodeList.ofList ns)

def HNodeList.toList : HNodeList → List HNode
  | .nil => []
  | .cons n ns => n :: HNodeList.toList ns

/-- Element-node builder used for fixtures. -/
def E (tag : String) (attrs : List (String × String)) (children : List HNode) : HNode :=
  .elem tag attrs (.ofList children)

/-- Text-node builder used for fixtures. -/
def T (s : String) : HNode :=
  .text s

/-- First value of attribute `name`; `tag.get(name)`. -/
def getAttrList : List (String × String) → String → Option String
  | [], _ => none
  | (k, v) :: rest, name => if k == name then some v else getAttrList rest name

def HNode.attr (n : HNode) (name : String) : Option String :=
  match n with
  | .elem _ attrs _ => getAttrList attrs name
  | .text _ => none

/-- Embeds `tag.get(name, dflt)`. -/
def HNode.attrD (n : HNode) (name dflt : String) : String :=
  (n.attr name).getD dflt

/-- Python truthiness of a bs4 `Tag`: `Tag.__len__` counts `contents`,
so a tag is truthy iff it has at least one child. -/
def nodeTruthy (n : HNode) : Bool :=
  match n with
  | .elem _ _ (.cons _ _) => true
  | .elem _ _ .nil => false
  | .text s => s != ""

mutual
/-- bs4 `.text` / `get_text()`: concatenation of all descendant strings. -/
def nodeTextRaw : HNode → String
  | .text s => s
  | .elem _ _ cs => listTextRaw cs
def listTextRaw : HNodeList → String
  | .nil => ""
  | .cons n ns => nodeTextRaw n ++ listTextRaw ns
end

mutual
/-- bs4 `get_text(strip=True)`: concatenation of the individually
stripped descendant strings. -/
def nodeTextStrip : HNode → String
  | .text s => pyStrip s
  | .elem _ _ cs => listTextStrip cs
def listTextStrip : HNodeList → String
  | .nil => ""
  | .cons n ns => nodeTextStrip n ++ listTextStrip ns
end

mutual
/-- All elements matching `p` in a subtree, document (pre-)order. -/
def selectNode (p : HNode → Bool) : HNode → List HNode
  | .text _ => []
  | .elem t a cs =>
      (if p (.elem t a cs) then [HNode.elem t a cs] else []) ++ selectList p cs
def selectList (p : HNode → Bool) : HNodeList → List HNode
  | .nil => []
  | .cons n ns => selectNode p n ++ selectList p ns
end

/-- Embeds `card.select(sel)`: matching elements among `card`'s descendants. -/
def selectIn (card : HNode) (p : HNode → Bool) : List HNode :=
  match card with
  | .elem _ _ cs => selectList p cs
  | .text _ => []

/-- Embeds `card.select_one(sel)`. -/
def selectOneIn (card : HNode) (p : HNode → Bool) : Option HNode :=
  (selectIn card p).head?

mutual
/-- Each element of a subtree paired with its parent node, document
order; `parent` is the parent of the nodes in the argument. -/
def elemsWithParentN (parent : HNode) : HNode → List (HNode × HNode)
  | .text _ => []
  | .elem t a cs =>
      (HNode.elem t a cs, parent) :: elemsWithParentL (.elem t a cs) cs
def elemsWithParentL (parent : HNode) : HNodeList → List (HNode × HNode)
  | .nil => []
  | .cons n ns => elemsWithParentN parent n ++ elemsWithParentL parent ns
end

/-- Embeds `soup.select(sel)` with each match paired with its `.parent`
(for top-level matches the parent is the soup object itself). -/
def docSelectWithParent (soup : HNode) (p : HNode → Bool) : List (HNode × HNode) :=
  match soup with
  | .elem _ _ cs => (elemsWithParentL soup cs).filter (fun x => p x.1)
  | .text _ => []

mutual
/-- Remove the first element (document order) matching `p` from a
subtree; the flag reports whether a removal happened (`decompose`). -/
def removeFirstN (p : HNode → Bool) : HNode → (HNode × Bool)
  | .text s => (.text s, false)
  | .elem t a cs =>
      let r := removeFirstL p cs
      (.elem t a r.1, r.2)
def removeFirstL (p : HNode → Bool) : HNodeList → (HNodeList × Bool)
  | .nil => (.nil, false)
  | .cons n ns =>
      if (match n with | .elem _ _ _ => p n | .text _ => false) then (ns, true)
      else
        let rn := removeFirstN p n
        if rn.2 then (.cons rn.1 ns, true)
        else
          let rs := removeFirstL p ns
          (.cons n rs.1, rs.2)
end

/-! Selector predicates.  Each `def` embeds one CSS selector string
appearing in the scripts; `[class*='v']` tests the serialized class
attribute for a substring, `.cls` tests membership in the class list. -/

def hasTag (t : String) (n : HNode) : Bool :=
  match n with
  | .elem tg _ _ => tg == t
  | .text _ => false

def attrContains (name sub : String) (n : HNode) : Bool :=
  match n.attr name with
  | some v => pyContains v sub
  | none => false

def attrEndsWith (name suffix : String) (n : HNode) : Bool :=
  match n.attr name with
  | some v => pyEndsWith v suffix
  | none => false

def hasAttr (name : String) (n : HNode) : Bool :=
  (n.attr name).isSome

def hasClass (c : String) (n : HNode) : Bool :=
  (pySplitWs (n.attrD "class" "")).contains c

/-- The `link = f"https://{domain}{href}" if href.startswith("/") else
href` idiom shared by the generators. -/
def buildLink (base href : String) : String :=
  if pyStartsWith href "/" then base ++ href else href

/-! ### Field extractors of `anthropic_news_blog.py` -/

/-- The selector chain of `extract_title`, in order. -/
def newsTitleSelectors : List (HNode → Bool) :=
  [fun n => hasTag "h2" n && attrContains "class" "featuredTitle" n,
   fun n => hasTag "h4" n && attrContains "class" "title" n,
   fun n => hasTag "span" n && attrContains "class" "title" n,
   fun n => hasTag "h3" n && hasClass "PostCard_post-heading__Ob1pu" n,
   fun n => hasTag "h3" n && hasClass "Card_headline__reaoT" n,
   fun n => hasTag "h3" n && attrContains "class" "headline" n,
   fun n => hasTag "h3" n && attrContains "class" "heading" n,
   fun n => hasTag "h2" n && attrContains "class" "headline" n,
   fun n => hasTag "h2" n && attrContains "class" "heading" n,
   fun n => hasTag "h3" n,
   fun n => hasTag "h2" n]

/-- Embeds `extract_title`: first selector whose match has non-empty stripped
text wins; `None` otherwise. -/
def extract_title_loop : List (HNode → Bool) → HNode → Option String
  | [], _ => none
  | p :: rest, card =>
      match selectOneIn card p with
      | some e =>
          let t := pyStrip (nodeTextRaw e)
          if t != "" then some t else extract_title_loop rest card
      | none => extract_title_loop rest card

def extract_title (card : HNode) : Option String :=
  extract_title_loop newsTitleSelectors card

/-- The selector chain of `extract_date`, in order. -/
def newsDateSelectors : List (HNode → Bool) :=
  [fun n => hasTag "time" n && attrContains "class" "date" n,
   fun n => hasTag "time" n,
   fun n => hasTag "p" n && hasClass "detail-m" n,
   fun n => hasTag "div" n && hasClass "PostList_post-date__djrOA" n,
   fun n => hasTag "p" n && attrContains "class" "date" n,
   fun n => hasTag "div" n && attrContains "class" "date" n]

/-- The format list of `extract_date`, in order. -/
def news_date_formats : List (List FTok) :=
  [fmtbdY, fmtBdY, fmtbdY2, fmtBdY2, fmtYmd, fmtmdY]

/-- Inner loops of `extract_date`: all elements matched by one selector,
each text tried against the formats (`parse_date_loop` is exactly the
shared first-successful-format loop, including `replace(tzinfo=UTC)`). -/
def extract_date_elems : List HNode → Option PyDateTime
  | [] => none
  | e :: rest =>
      match parse_date_loop news_date_formats (pyStrip (nodeTextRaw e)) with
      | some dt => some dt
      | none => extract_date_elems rest

def extract_date_sels : List (HNode → Bool) → HNode → Option PyDateTime
  | [], _ => none
  | p :: rest, card =>
      match extract_date_elems (selectIn card p) with
      | some dt => some dt
      | none => extract_date_sels rest card

def extract_date (card : HNode) : Option PyDateTime :=
  extract_date_sels newsDateSelectors card

/-- The selector chain of `extract_category`, in order. -/
def newsCategorySelectors : List (HNode → Bool) :=
  [fun n => hasTag "span" n && attrContains "class" "subject" n,
   fun n => hasTag "span" n && hasClass "caption" n && hasClass "bold" n,
   fun n => hasTag "span" n && hasClass "text-label" n,
   fun n => hasTag "p" n && hasClass "detail-m" n,
   fun n => hasTag "span" n && attrContains "class" "category" n,
   fun n => hasTag "div" n && attrContains "class" "category" n]

def monthAbbrevWords : List String :=
  ["Jan", "Feb", "Mar", "Apr", "May", "Jun", "Jul", "Aug", "Sep", "Oct",
   "Nov", "Dec"]

/-- Embeds `extract_category(card)`; always called with `date_elem_text=None`
in `parse_news_html`, so that comparison is omitted.  An element whose
text contains a month abbreviation is skipped (next selector). -/
def extract_category_loop : List (HNode → Bool) → HNode → String
  | [], _ => "News"
  | p :: rest, card =>
      match selectOneIn card p with
      | none => extract_category_loop rest card
      | some e =>
          let t := pyStrip (nodeTextRaw e)
          if monthAbbrevWords.any (fun m => pyContains t m) then
            extract_category_loop rest card
          else t

def extract_category (card : HNode) : String :=
  extract_category_loop newsCategorySelectors card

/-! ### URL helpers of `barrons.py`

`urllib.parse.urlparse` / `parse_qs`, restricted to what the script
reads from them: scheme, netloc, path and the `mod` query parameter.
Percent-decoding is omitted (the `mod` values are plain tokens). -/

structure UrlParts where
  scheme : String
  netloc : String
  path : String
  query : String
deriving DecidableEq, Repr

/-- Split at the first occurrence of `pat` (removed); `(s, "")` when
absent. -/
def splitFirstAux (pat : List Char) (acc : List Char) : List Char → (List Char × List Char)
  | [] => (acc.reverse, [])
  | c :: cs =>
      if isPrefixChars pat (c :: cs) then (acc.reverse, (c :: cs).drop pat.length)
      else splitFirstAux pat (c :: acc) cs

def splitFirstStr (s pat : String) : (String × String) :=
  let r := splitFirstAux pat.data [] s.data
  (String.mk r.1, String.mk r.2)

/-- Embeds `urllib.parse.urlparse`, for the absolute and relative HTTP URLs
this script builds: fragment after `#` is discarded, query after the
first `?`, netloc between `://` and the next `/`. -/
def pyUrlparse (url : String) : UrlParts :=
  let noFrag := (splitFirstStr url "#").1
  if pyContains noFrag "://" then
    let r1 := splitFirstStr noFrag "://"
    let r2 := splitFirstStr r1.2 "?"
    let netloc := String.mk (r2.1.data.takeWhile (fun c => c != '/'))
    let path := String.mk (r2.1.data.dropWhile (fun c => c != '/'))
    { scheme := pyLower r1.1, netloc := netloc, path := path, query := r2.2 }
  else
    let r := splitFirstStr noFrag "?"
    { scheme := "", netloc := "", path := r.1, query := r.2 }

/-- Embeds `parse_qs(query).get("mod", [""])[0]`: the first non-blank value of
the `mod` key (with default `parse_qs` settings, pairs without `=` or
with a blank value are dropped). -/
def getModParam0 : List String → String
  | [] => ""
  | part :: rest =>
      if pyContains part "=" then
        let kv := splitFirstStr part "="
        if kv.1 == "mod" && kv.2 != "" then kv.2 else getModParam0 rest
      else getModParam0 rest

def getModParam (query : String) : String :=
  getModParam0 (pySplitOn query '&')

/-! ### Section filtering of `barrons.py` -/

def EXCLUDED_SECTIONS : List String :=
  ["COMMENTARY", "MEDIA", "MAGAZINE", "RETIREMENTANDWELLBEING", "VIDEO"]

/-- Embeds `get_section_from_mod`: strip `hp_`, handle `FEEDS_X_SECTION_...`,
otherwise the part before the first underscore. -/
def get_section_from_mod (mod_param : String) : Option String :=
  if mod_param == "" then none
  else
    let sect := pyReplace mod_param "hp_" ""
    let feedsResult : Option String :=
      if pyStartsWith sect "FEEDS_" then
        let parts := pySplitOn sect '_'
        if 3 ≤ parts.length then some (parts.getD 2 "") else none
      else none
    match feedsResult with
    | some s => some s
    | none =>
        match pySplitOn sect '_' with
        | [] => none
        | p :: _ => some p

/-- Embeds `is_excluded_section` (a `None` or empty section is not excluded). -/
def is_excluded_section (mod_param : String) : Bool :=
  match get_section_from_mod mod_param with
  | some s => if s != "" then EXCLUDED_SECTIONS.contains s else false
  | none => false

/-! ### Article records -/

/-- The article dictionary shared by `barrons.py` and
`anthropic_news_blog.py`: `{title, link, description, date, category}`. -/
structure Article where
  title : String
  link : String
  description : String
  date : PyDateTime
  category : String
deriving DecidableEq, Repr

/-- The article dictionary of `noordhollandsdagblad_alkmaar.py`, which
additionally carries `article_id`. -/
structure NArticle where
  title : String
  link : String
  description : String
  date : PyDateTime
  category : String
  article_id : String
deriving DecidableEq, Repr

/-! ### `parse_articles` and `generate_rss_feed` of `barrons.py`

`datetime.now(pytz.UTC)` is embedded through `clock : Nat → Int`: the
`k`-th evaluation of `datetime.now` in one run returns the timestamp
`clock k`; the counter is threaded through the loop.  The `seen_links`
set is threaded as a list; membership is all that is used. -/

def barronsCategoryMap : List (String × String) :=
  [("Lede", "Top Stories"), ("Stockpicks", "Stock Picks"),
   ("Biotechandpharma", "Biotech & Pharma"), ("Sp", "Featured"),
   ("Wind", "Featured"), ("Ceosthoughtleaders", "CEOs & Thought Leaders"),
   ("Barronsadvisor", "Barron's Advisor")]

def mapGetD (m : List (String × String)) (k dflt : String) : String :=
  (getAttrList m k).getD dflt

/-- The `for link_elem in article_links` loop of `parse_articles`,
returning the produced articles and the final `seen_links`. -/
def barronsLoop (clock : Nat → Int) :
    List (HNode × HNode) → List String → Nat → (List Article × List String)
  | [], seen, _ => ([], seen)
  | (link_elem, parent) :: rest, seen, k =>
      let href := link_elem.attrD "href" ""
      if href == "" then barronsLoop clock rest seen k
      else
        let link := buildLink "https://www.barrons.com" href
        let parsed := pyUrlparse link
        let mod_param := getModParam parsed.query
        if is_excluded_section mod_param then barronsLoop clock rest seen k
        else
          let clean_url := parsed.scheme ++ "://" ++ parsed.netloc ++ parsed.path
          if seen.contains clean_url then barronsLoop clock rest seen k
          else
            let seen2 := clean_url :: seen
            let headline0 :=
              match selectOneIn link_elem
                  (fun n => hasTag "h3" n || hasTag "h2" n || hasTag "span" n) with
              | none => nodeTextStrip link_elem
              | some e => nodeTextStrip e
            let headline := collapseWs headline0
            if headline == "" || headline.length < 10 then
              barronsLoop clock rest seen2 k
            else
              let description :=
                match (if nodeTruthy parent then selectOneIn parent (hasTag "p")
                  else none) with
                | some de => nodeTextStrip de
                | none => headline
              let category0 :=
                match get_section_from_mod mod_param with
                | some s => if s != "" then pyTitle (pyReplace s "_" " ") else "News"
                | none => "News"
              let category := mapGetD barronsCategoryMap category0 category0
              let article : Article :=
                { title := headline, link := clean_url, description := description,
                  date := { ts := clock k, utc := true }, category := category }
              let r := barronsLoop clock rest seen2 (k + 1)
              (article :: r.1, r.2)

/-- Embeds `parse_articles` of `barrons.py`: candidates are
`soup.select('a[href*="/articles/"]')`, each with its parent. -/
def barrons_parse_articles (soup : HNode) (clock : Nat → Int) : List Article :=
  (barronsLoop clock
    (docSelectWithParent soup
      (fun n => hasTag "a" n && attrContains "href" "/articles/" n))
    [] 0).1

/-- Embeds `generate_rss_feed` of `barrons.py`, as the sequence of entries
added to the feed: one entry per article, in the order of the input
list.  The source contains no sorting in this function. -/
def barrons_generate_rss_feed (articles : List Article) : List Article :=
  articles

/-! ### `parse_articles` and `generate_rss_feed` of
`noordhollandsdagblad_alkmaar.py`

The optional Selenium driver is embedded as
`driver : Option (String → Option PyDateTime)`: applied to an article
URL it returns the date `fetch_article_date_with_driver` would extract
from that page, or `none`.  The process hash function `pyHash` enters
through `stable_fallback_date`. -/

/-- Embeds `span[class*='title__title']` and friends. -/
def selSpanClassContains (sub : String) (n : HNode) : Bool :=
  hasTag "span" n && attrContains "class" sub n

def noordCatKeywords : List String :=
  ["premium", "interview", "column", "reportage"]

/-- First-loop `for span in reversed(spans)` pick: substantial text that
is not a category label. -/
def loop1SpanPick : List HNode → Option HNode
  | [] => none
  | sp :: rest =>
      let t := nodeTextStrip sp
      if 10 < t.length &&
          !(noordCatKeywords.any (fun cat => pyContains (pyLower t) cat)) then
        some sp
      else loop1SpanPick rest

/-- Second-loop `for span in reversed(spans)` pick: substantial text. -/
def loop2SpanPick : List HNode → Option String
  | [] => none
  | sp :: rest =>
      let t := nodeTextStrip sp
      if 10 < t.length then some t else loop2SpanPick rest

def noord1Prefixes : List String :=
  ["PremiumInterview", "PremiumColumn", "PremiumReportage",
   "PremiumVerdriet", "PremiumWarmtenet", "PremiumEnquête",
   "PremiumTraditie", "PremiumFestival", "PremiumAfscheidsinterview",
   "PremiumHoge beloning", "PremiumSeniorenhuisvesting",
   "Premium", "Interview", "Column", "Reportage", "Zitting",
   "Politiek", "112", "Overleden", "Gezondheid", "Verdriet"]

def noord2Prefixes : List String :=
  ["PremiumInterview", "PremiumColumn", "PremiumReportage",
   "PremiumVerdriet", "PremiumWarmtenet", "PremiumEnquête",
   "Premium", "Interview", "Column", "Reportage", "Zitting",
   "Politiek", "112", "Overleden", "Gezondheid", "Verdriet"]

/-- Embeds `for prefix in prefixes_to_strip: if title.startswith(prefix):
title = title[len(prefix):].strip(); break`. -/
def stripPrefixesLoop : List String → String → String
  | [], t => t
  | p :: ps, t =>
      if pyStartsWith t p then pyStrip (String.mk (t.data.drop p.data.length))
      else stripPrefixesLoop ps t

/-- The first loop of `parse_articles` (over
`soup.select("article[data-article-id]")`), threading `seen_links`. -/
def noordLoop1 (driver : Option (String → Option PyDateTime))
    (pyHash : String → Int) :
    List HNode → List String → (List NArticle × List String)
  | [], seen => ([], seen)
  | article :: rest, seen =>
      let article_id := article.attrD "data-article-id" ""
      match selectOneIn article
          (fun n => hasTag "a" n && attrContains "href" "/regio/alkmaar/" n) with
      | none => noordLoop1 driver pyHash rest seen
      | some link_elem =>
          let href := link_elem.attrD "href" ""
          if href == "" then noordLoop1 driver pyHash rest seen
          else
            let link := buildLink "https://www.noordhollandsdagblad.nl" href
            if seen.contains link then noordLoop1 driver pyHash rest seen
            else
              let seen2 := link :: seen
              let title_elem0 :=
                optOr (selectOneIn article (selSpanClassContains "title__title"))
                  (selectOneIn article
                    (selSpanClassContains "teaser-content__title__title"))
              let title_elem :=
                match title_elem0 with
                | some e => some e
                | none =>
                    match selectOneIn article
                        (fun n => hasTag "h2" n || hasTag "h3" n) with
                    | some h2e =>
                        loop1SpanPick (selectIn h2e (hasTag "span")).reverse
                    | none => none
              let title0 :=
                match title_elem with
                | some e => nodeTextStrip e
                | none => ""
              let title1 := if title0 == "" then nodeTextStrip link_elem else title0
              let title := stripPrefixesLoop noord1Prefixes title1
              if title == "" || title.length < 5 then
                noordLoop1 driver pyHash rest seen2
              else
                let description :=
                  match optOr (selectOneIn article
                      (fun n => hasTag "p" n && attrContains "class" "introduction" n))
                    (selectOneIn article (hasTag "p")) with
                  | some de => nodeTextStrip de
                  | none => title
                let category0 :=
                  match optOr
                      (selectOneIn article (selSpanClassContains "taxonomy__label"))
                      (selectOneIn article (selSpanClassContains "label")) with
                  | some ce => nodeTextStrip ce
                  | none => "Nieuws"
                let is_premium :=
                  (selectOneIn article (attrContains "class" "premium")).isSome
                let category :=
                  if is_premium && category0 == "Nieuws" then "Premium" else category0
                let dateFetched : Option PyDateTime :=
                  match driver with
                  | some drv => drv link
                  | none => none
                let date :=
                  match dateFetched with
                  | some d => d
                  | none =>
                      stable_fallback_date pyHash
                        (if article_id != "" then article_id else link)
                let art : NArticle :=
                  { title := title, link := link, description := description,
                    date := date, category := category, article_id := article_id }
                let r := noordLoop1 driver pyHash rest seen2
                (art :: r.1, r.2)

/-- The second loop of `parse_articles` (over
`soup.select("a[href*='/regio/alkmaar/'][href$='.html']")`, each link
with its parent), threading `seen_links`. -/
def noordLoop2 (driver : Option (String → Option PyDateTime))
    (pyHash : String → Int) :
    List (HNode × HNode) → List String → (List NArticle × List String)
  | [], seen => ([], seen)
  | (link_elem, parent) :: rest, seen =>
      let href := link_elem.attrD "href" ""
      if href == "" || seen.contains href then noordLoop2 driver pyHash rest seen
      else
        let link := buildLink "https://www.noordhollandsdagblad.nl" href
        if seen.contains link then noordLoop2 driver pyHash rest seen
        else
          let seen2 := link :: seen
          let title_elem0 :=
            optOr (selectOneIn link_elem (selSpanClassContains "title__title"))
              (selectOneIn link_elem
                (selSpanClassContains "teaser-content__title__title"))
          let title_elem :=
            match title_elem0 with
            | some e => some e
            | none =>
                if nodeTruthy parent then
                  selectOneIn parent (selSpanClassContains "title__title")
                else none
          let title0 :=
            match title_elem with
            | some e => nodeTextStrip e
            | none => ""
          let title1 :=
            if title0 == "" then
              match selectOneIn link_elem
                  (fun n => hasTag "h2" n || hasTag "h3" n || hasTag "h4" n) with
              | some heading =>
                  match loop2SpanPick (selectIn heading (hasTag "span")).reverse with
                  | some t => t
                  | none => ""
              | none => ""
            else title0
          let title := stripPrefixesLoop noord2Prefixes title1
          if title == "" || title.length < 5 then noordLoop2 driver pyHash rest seen2
          else
            let article_id :=
              if pyContains link ".html" then
                let parts := pySplitOn (pyRstripSet link ".html".data) '/'
                match parts.getLast? with
                | some last =>
                    if pyContains last "-" then
                      ((pySplitOn last '-').getLast?).getD ""
                    else last
                | none => ""
              else ""
            let dateFetched : Option PyDateTime :=
              match driver with
              | some drv => drv link
              | none => none
            let date :=
              match dateFetched with
              | some d => d
              | none =>
                  stable_fallback_date pyHash
                    (if article_id != "" then article_id else link)
            let art : NArticle :=
              { title := title, link := link, description := title,
                date := date, category := "Nieuws", article_id := article_id }
            let r := noordLoop2 driver pyHash rest seen2
            (art :: r.1, r.2)

/-- Embeds `parse_articles` of `noordhollandsdagblad_alkmaar.py`: decompose the
`MEEST GELEZEN` sidebar, run the article-element loop, then the
teaser-link loop on the same `seen_links`. -/
def noord_parse_articles (soup : HNode)
    (driver : Option (String → Option PyDateTime))
    (pyHash : String → Int) : List NArticle :=
  let soup2 := (removeFirstN (attrContains "id" "MEEST-GELEZEN") soup).1
  let r1 := noordLoop1 driver pyHash
    (selectIn soup2 (fun n => hasTag "article" n && hasAttr "data-article-id" n)) []
  let r2 := noordLoop2 driver pyHash
    (docSelectWithParent soup2
      (fun n => hasTag "a" n && attrContains "href" "/regio/alkmaar/" n &&
        attrEndsWith "href" ".html" n))
    r1.2
  r1.1 ++ r2.1

/-- Newest-first order on the records of this feed. -/
def noordDateGE (a b : NArticle) : Prop :=
  b.date.ts ≤ a.date.ts

instance : DecidableRel noordDateGE :=
  fun a b => inferInstanceAs (Decidable (b.date.ts ≤ a.date.ts))

instance : IsTotal NArticle noordDateGE :=
  ⟨fun a b => le_total b.date.ts a.date.ts⟩

instance : IsTrans NArticle noordDateGE :=
  ⟨fun _ _ _ h1 h2 => le_trans h2 h1⟩

/-- Embeds `generate_rss_feed` of `noordhollandsdagblad_alkmaar.py`, as the
sequence of entries added to the feed:
`sorted(articles, key=lambda x: x["date"], reverse=True)`.  Python's
`sorted` is stable, and any stable sort by the same key computes the
same list, so a stable insertion sort represents it exactly. -/
def noord_generate_rss_feed (articles : List NArticle) : List NArticle :=
  List.insertionSort noordDateGE articles

/-! ### `validate_article` and `parse_news_html` of
`anthropic_news_blog.py` -/

/-- Embeds `validate_article`: required fields with reasonable values.  The
`date` check (`if not article.get("date")`) can never fire in
`parse_news_html`, since the date slot always holds a `datetime` (a
truthy object) by the time validation runs; it is therefore omitted
from the embedded record, which carries a `PyDateTime` directly. -/
def validate_article (a : Article) : Bool :=
  if !(pyTruthy a.title) || a.title.length < 5 then false
  else if !(pyTruthy a.link) || !(pyStartsWith a.link "http") then false
  else true

/-- The `for card in all_news_links` loop of `parse_news_html`,
threading `seen_links`. -/
def newsLoop (pyHash : String → Int) :
    List HNode → List String → (List Article × List String)
  | [], seen => ([], seen)
  | card :: rest, seen =>
      let href := card.attrD "href" ""
      if href == "" then newsLoop pyHash rest seen
      else
        let link := buildLink "https://www.anthropic.com" href
        if seen.contains link then newsLoop pyHash rest seen
        else if pyEndsWith link "/news" || pyEndsWith link "/news/" ||
            pyContains link "/news#" then
          newsLoop pyHash rest seen
        else
          let seen2 := link :: seen
          match extract_title card with
          | none => newsLoop pyHash rest seen2
          | some title =>
              let date :=
                match extract_date card with
                | some d => d
                | none => stable_fallback_date_news pyHash link
              let category := extract_category card
              let article : Article :=
                { title := title, link := link, description := title,
                  date := date, category := category }
              if validate_article article then
                let r := newsLoop pyHash rest seen2
                (article :: r.1, r.2)
              else newsLoop pyHash rest seen2

/-- Embeds `parse_news_html`: candidates are
`soup.select('a[href*="/news/"], a[href*="anthropic.com/news/"]')`. -/
def parse_news_html (soup : HNode) (pyHash : String → Int) : List Article :=
  (newsLoop pyHash
    (selectIn soup
      (fun n => hasTag "a" n &&
        (attrContains "href" "/news/" n ||
          attrContains "href" "anthropic.com/news/" n)))
    []).1

/-! ### `get_existing_links_from_feed` of `anthropic_news_blog.py`

The filesystem is abstracted as `Option HNode`: `none` when
`feed_path.exists()` is false, otherwise the root element of the parsed
XML document (`ElementTree.getroot()`).  `elem.text` of ElementTree is
the text immediately after the start tag, i.e. a leading text child. -/

/-- ElementTree `elem.text`. -/
def etText (n : HNode) : Option String :=
  match n with
  | .elem _ _ (.cons (.text s) _) => some s
  | _ => none

/-- Direct children with a given tag (`findall` / `find` steps). -/
def childrenNamed (n : HNode) (name : String) : List HNode :=
  match n with
  | .elem _ _ cs => cs.toList.filter (hasTag name)
  | .text _ => []

/-- Python `set.add`: the embedded set keeps first-insertion order. -/
def setInsert (s : List String) (x : String) : List String :=
  if s.contains x then s else s ++ [x]

/-- The `for item in root.findall("./channel/item")` loop. -/
def getLinksLoop : List HNode → List String → List String
  | [], acc => acc
  | item :: rest, acc =>
      match (childrenNamed item "link").head? with
      | some link_elem =>
          match etText link_elem with
          | some t =>
              if t != "" then getLinksLoop rest (setInsert acc (pyStrip t))
              else getLinksLoop rest acc
          | none => getLinksLoop rest acc
      | none => getLinksLoop rest acc

/-- Embeds `get_existing_links_from_feed`. -/
def get_existing_links_from_feed (file : Option HNode) : List String :=
  match file with
  | none => []
  | some root =>
      getLinksLoop
        ((childrenNamed root "channel").foldr
          (fun ch acc => childrenNamed ch "item" ++ acc) [])
        []

/-! ### `merge_posts` of `archive/cursor_blog.py`

Cached posts come from the JSON cache; their `date` field is the raw
ISO string from the `datetime` attribute, and the final
`merged.sort(key=lambda p: p.get("date", ""), reverse=True)` compares
those strings.  Python's `list.sort` is stable, so the stable insertion
sort below computes the same list. -/

structure Post where
  url : String
  title : String
  description : String
  date : String
  category : String
deriving DecidableEq, Repr

/-- The `for post in new_posts` loop: append posts whose `url` is not in
`existing_urls`, updating the set. -/
def mergeNewLoop : List Post → List String → List Post
  | [], _ => []
  | p :: rest, urls =>
      if urls.contains p.url then mergeNewLoop rest urls
      else p :: mergeNewLoop rest (p.url :: urls)

/-- Lexicographic `≤` on code points, Python's string comparison. -/
def leChars : List Char → List Char → Bool
  | [], _ => true
  | _ :: _, [] => false
  | a :: as, b :: bs =>
      if a.toNat < b.toNat then true
      else if b.toNat < a.toNat then false
      else leChars as bs

/-- Newest-first order on cached posts (ISO date strings). -/
def cursorDateGE (a b : Post) : Prop :=
  leChars b.date.data a.date.data = true

instance : DecidableRel cursorDateGE :=
  fun a b => inferInstanceAs (Decidable (leChars b.date.data a.date.data = true))

/-- Embeds `merge_posts`. -/
def merge_posts (new_posts cached_posts : List Post) : List Post :=
  List.insertionSort cursorDateGE
    (cached_posts ++ mergeNewLoop new_posts (cached_posts.map Post.url))

/-! ### The `main` functions

`main` of `barrons.py` and of `noordhollandsdagblad_alkmaar.py` run
fetch, parse, generate and save inside one `try`, return `False` from
the `except` arm and on an empty article list, and `True` only after
`save_rss_feed` has returned.  The four steps perform I/O, so the
embedding takes each step's outcome as an `Except`-valued parameter
(`.error` = the step raised).  The `finally: driver.quit()` of the
noordhollandsdagblad variant does not affect the returned value. -/

def barrons_main (fetchResult : Except String String)
    (parseResult : String → Except String (List Article))
    (genResult : List Article → Except String (List Article))
    (saveResult : List Article → Except String Unit) : Bool :=
  match fetchResult with
  | .error _ => false
  | .ok html =>
      match parseResult html with
      | .error _ => false
      | .ok articles =>
          if articles.isEmpty then false
          else
            match genResult articles with
            | .error _ => false
            | .ok feed =>
                match saveResult feed with
                | .error _ => false
                | .ok _ => true

def noord_main (fetchResult : Except String String)
    (parseResult : String → Except String (List NArticle))
    (genResult : List NArticle → Except String (List NArticle))
    (saveResult : List NArticle → Except String Unit) : Bool :=
  match fetchResult with
  | .error _ => false
  | .ok html =>
      match parseResult html with
      | .error _ => false
      | .ok articles =>
          if articles.isEmpty then false
          else
            match genResult articles with
            | .error _ => false
            | .ok feed =>
                match saveResult feed with
                | .error _ => false
                | .ok _ => true

/-! ### The "See more" click loop of `fetch_news_content`
(`anthropic_news_blog.py`)

    max_clicks = 20  # Safety limit
    clicks = 0
    while clicks < max_clicks:
        ... find button ...
        if see_more_button and see_more_button.is_displayed():
            ... click ...
            clicks += 1
        else:
            break

`visible k` abstracts whether, at the iteration entered with
`clicks = k`, the selector cascade finds a displayed button (an
exception while searching takes the `break` arm as well).  The
recursion is on the remaining budget `max_clicks - clicks`, which the
loop guard bounds. -/

def clickSeeMore (visible : Nat → Bool) : Nat → Nat → Nat
  | 0, clicks => clicks
  | rem + 1, clicks =>
      if visible clicks then clickSeeMore visible rem (clicks + 1) else clicks

/-- Number of clicks performed by the `fetch_news_content` loop. -/
def fetch_news_clicks (visible : Nat → Bool) : Nat :=
  clickSeeMore visible 20 0

/-! ### Predicates and fixtures used by the verified properties -/

/-- Property "Entries are in descending order of their `date` field": every
adjacent pair is non-increasing. -/
def newestFirstB : List Article → Bool
  | a :: b :: rest => decide (b.date.ts ≤ a.date.ts) && newestFirstB (b :: rest)
  | _ => true

/-- Same, for the noordhollandsdagblad records. -/
def newestFirstNB : List NArticle → Bool
  | a :: b :: rest => decide (b.date.ts ≤ a.date.ts) && newestFirstNB (b :: rest)
  | _ => true

/-- The fields of an article record other than the date. -/
def articleStatic (a : Article) : String × String × String × String :=
  (a.title, a.link, a.description, a.category)

/-- The fields of a noordhollandsdagblad record other than the date. -/
def narticleStatic (a : NArticle) : String × String × String × String × String :=
  (a.title, a.link, a.description, a.category, a.article_id)

/-- A Barron's homepage with two article cards (no `mod` parameter, so
no section is excluded). -/
def barronsTwoCardSoup : HNode :=
  E "[document]" []
    [E "a" [("href", "/articles/first-story")]
      [E "h3" [] [T "First long headline here"]],
     E "a" [("href", "/articles/second-story")]
      [E "h3" [] [T "Second long headline here"]]]

/-- A Barron's homepage with one article card. -/
def barronsOneCardSoup : HNode :=
  E "[document]" []
    [E "a" [("href", "/articles/lone-story")]
      [E "h3" [] [T "A single long headline here"]]]

/-- An Anthropic news page with one well-formed card and one card from
which no title can be extracted. -/
def newsMixedSoup : HNode :=
  E "[document]" []
    [E "a" [("href", "/news/good-story")]
      [E "h3" [] [T "A fine announcement"],
       E "time" [] [T "Nov 12, 2025"],
       E "span" [("class", "caption bold")] [T "Announcements"]],
     E "a" [("href", "/news/no-title-card")]
      [E "div" [] [T "not a title"]]]

/-- The article extracted from the well-formed card of
`newsMixedSoup`. -/
def newsGoodArticle : Article :=
  { title := "A fine announcement",
    link := "https://www.anthropic.com/news/good-story",
    description := "A fine announcement",
    date := mkUTC 2025 11 12 0 0 0,
    category := "Announcements" }

/-- Embeds `<item><link>s</link></item>`. -/
def itemWithLink (s : String) : HNode :=
  E "item" [] [E "link" [] [T s]]

/-- An RSS 2.0 document whose channel contains exactly three items. -/
def rssThreeItems (s1 s2 s3 : String) : HNode :=
  E "rss" [("version", "2.0")]
    [E "channel" []
      [E "title" [] [T "Anthropic News"],
       itemWithLink s1, itemWithLink s2, itemWithLink s3]]

/-! ## Verified properties -/

/-! ### Helper lemmas -/

theorem clickSeeMore_le (visible : Nat → Bool) :
    ∀ rem clicks, clickSeeMore visible rem clicks ≤ rem + clicks := by
  intro rem
  induction rem with
  | zero => intro clicks; simp [clickSeeMore]
  | succ n ih =>
      intro clicks
      simp only [clickSeeMore]
      split
      · exact le_trans (ih (clicks + 1)) (by omega)
      · omega

theorem parse_date_loop_findSome (fs : List (List FTok)) (s : String) :
    parse_date_loop fs s =
      (fs.findSome? (fun f => strptime f s)).map
        (fun dt => { dt with utc := true }) := by
  induction fs with
  | nil => rfl
  | cons f rest ih =>
      simp only [parse_date_loop, List.findSome?]
      cases strptime f s <;> simp [ih]

/-! ### C10: the fallback date lies in a 730-day window at the epoch -/

/-- Claim C10: for every identifier string (and every per-process string
hash), `stable_fallback_date` returns its fixed epoch (2024-01-01 UTC in
the active generators, 2023-01-01 UTC in the anthropic news/red
generators) plus a whole number of days `d` with `0 ≤ d ≤ 729`, so the
returned date lies in the 730-day window starting at that epoch. -/
theorem stable_fallback_date_window (pyHash : String → Int) (identifier : String) :
    ∃ d : Nat, d ≤ 729 ∧
      stable_fallback_date pyHash identifier =
        { ts := (mkUTC 2024 1 1 0 0 0).ts + 86400 * (d : Int), utc := true } ∧
      stable_fallback_date_news pyHash identifier =
        { ts := (mkUTC 2023 1 1 0 0 0).ts + 86400 * (d : Int), utc := true } := by
  refine ⟨(pyHash identifier).natAbs % 730, ?_, rfl, rfl⟩
  have h := Nat.mod_lt (pyHash identifier).natAbs (y := 730) (by norm_num)
  omega

/-! ### C1: cross-run stability of `stable_fallback_date` -/

/-- Claim C1 (divergence witness): `stable_fallback_date` calls the
built-in `hash`, and CPython randomizes the string-hash seed per
process.  Concretely, `hash("a")` is `4644417185603328019` in a process
started with `PYTHONHASHSEED=0` (day offset 699) and
`-3012895188637184397` with `PYTHONHASHSEED=1` (day offset 117), so two
independent runs return different dates for the same identifier,
contradicting the function's own "stable" contract. -/
theorem stable_fallback_date_seed_divergence :
    stable_fallback_date (fun _ => 4644417185603328019) "a" ≠
      stable_fallback_date (fun _ => -3012895188637184397) "a" := by decide

/-! ### C9: the "See more" click loop is bounded -/

/-- Claim C9: the "See more" click loop of `fetch_news_content` performs
at most 20 click iterations, whatever the page does; with a button that
is always present and displayed it performs exactly 20. -/
theorem fetch_news_clicks_bounded (visible : Nat → Bool) :
    fetch_news_clicks visible ≤ 20 ∧
      fetch_news_clicks (fun _ => true) = 20 := by
  constructor
  · have h := clickSeeMore_le visible 20 0
    simpa [fetch_news_clicks] using h
  · decide

/-! ### C5: `parse_date` tries the formats in order -/

/-- Claim C5: `parse_date` of `anthropic_red_blog.py` returns the first
successful parse of its ordered candidate-format list, tagged with UTC,
and `none` when no format matches; in particular
`parse_date "November 12, 2025"` is 2025-11-12T00:00:00 UTC, and a
string matching none of the formats yields `none`. -/
theorem parse_date_first_match_utc :
    (∀ s, parse_date s =
      (red_date_formats.findSome? (fun f => strptime f s)).map
        (fun dt => { dt with utc := true })) ∧
    parse_date "November 12, 2025" = some (mkUTC 2025 11 12 0 0 0) ∧
    parse_date "12-11-2025" = none := by
  refine ⟨fun s => parse_date_loop_findSome red_date_formats s, by decide, by decide⟩

/-! ### C8: `main` reports failure -/

/-- Claim C8: for both `main` functions, if the fetch, parse, generate
or save step raises (an `.error` outcome), or parsing yields zero
articles, `main` returns `False`; it returns `True` exactly when every
step completes with a non-empty article list and the save step (the
feed-file write) has succeeded. -/
theorem main_true_iff_all_steps_ok
    (f : Except String String) (p : String → Except String (List Article))
    (g : List Article → Except String (List Article))
    (sv : List Article → Except String Unit)
    (fn : Except String String) (pn : String → Except String (List NArticle))
    (gn : List NArticle → Except String (List NArticle))
    (svn : List NArticle → Except String Unit) :
    (barrons_main f p g sv = true ↔
      ∃ html articles feed, f = .ok html ∧ p html = .ok articles ∧
        articles.isEmpty = false ∧ g articles = .ok feed ∧ sv feed = .ok ()) ∧
    (noord_main fn pn gn svn = true ↔
      ∃ html articles feed, fn = .ok html ∧ pn html = .ok articles ∧
        articles.isEmpty = false ∧ gn articles = .ok feed ∧ svn feed = .ok ()) := by
  constructor
  all_goals
    constructor
    · intro h
      simp only [barrons_main, noord_main] at h
      split at h
      next => simp at h
      next _ html =>
        split at h
        next => simp at h
        next articles hp2 =>
          split at h
          next => simp at h
          next hA =>
            split at h
            next => simp at h
            next feed hg2 =>
              split at h
              next => simp at h
              next u hs2 =>
                cases u
                exact ⟨html, articles, feed, rfl, hp2, by simpa using hA, hg2, hs2⟩
    · rintro ⟨html, articles, feed, hf, hp2, hA, hg2, hs2⟩
      simp [barrons_main, noord_main, hf, hp2, hA, hg2, hs2]

/-! ### C2: feed entry order -/

theorem newestFirstNB_of_sorted :
    ∀ l : List NArticle, List.Sorted noordDateGE l → newestFirstNB l = true := by
  intro l
  induction l with
  | nil => intro _; rfl
  | cons a t ih =>
      intro h
      cases t with
      | nil => rfl
      | cons b t2 =>
          rw [List.sorted_cons] at h
          have hab : noordDateGE a b := h.1 b (by simp)
          simp only [newestFirstNB, Bool.and_eq_true, decide_eq_true_eq]
          exact ⟨hab, ih h.2⟩

/-- Claim C2 (counterexample): the claim fails on `barrons.py`.  On a
homepage with two article cards, parsed in a run whose `datetime.now`
clock advances between the two extractions, `generate_rss_feed` of
`barrons.py` adds the entries in parse order, which is ascending — not
descending — date order. -/
theorem barrons_feed_not_newest_first_cex :
    newestFirstB (barrons_generate_rss_feed
      (barrons_parse_articles barronsTwoCardSoup (fun k => (k : Int)))) = false := by
  decide

/-- Claim C2 (amended): `generate_rss_feed` of
`noordhollandsdagblad_alkmaar.py` sorts the parsed records
newest-first, so its entry sequence is in descending date order (and is
a permutation of the parse output); `generate_rss_feed` of `barrons.py`
performs no sort and adds entries exactly in parse order. -/
theorem generate_rss_feed_order_amended :
    (∀ articles : List NArticle,
      newestFirstNB (noord_generate_rss_feed articles) = true ∧
      (noord_generate_rss_feed articles).Perm articles) ∧
    (∀ articles : List Article, barrons_generate_rss_feed articles = articles) := by
  refine ⟨fun articles => ⟨?_, ?_⟩, fun _ => rfl⟩
  · exact newestFirstNB_of_sorted _ (List.sorted_insertionSort noordDateGE articles)
  · exact List.perm_insertionSort noordDateGE articles

/-! ### C7: reading links back from an existing feed -/

theorem mem_setInsert (s : List String) (x y : String) :
    y ∈ setInsert s x ↔ y = x ∨ y ∈ s := by
  unfold setInsert
  split
  · rename_i h
    have hx : x ∈ s := by simpa using h
    constructor
    · exact Or.inr
    · rintro (rfl | hy)
      · exact hx
      · exact hy
  · simp [List.mem_append, or_comm]

theorem get_existing_links_rssThree (s1 s2 s3 : String)
    (h1 : s1 ≠ "") (h2 : s2 ≠ "") (h3 : s3 ≠ "") :
    get_existing_links_from_feed (some (rssThreeItems s1 s2 s3)) =
      setInsert (setInsert (setInsert [] (pyStrip s1)) (pyStrip s2)) (pyStrip s3) := by
  simp [get_existing_links_from_feed, rssThreeItems, itemWithLink, E, T,
    HNodeList.ofList, HNodeList.toList, childrenNamed, hasTag, etText,
    getLinksLoop, h1, h2, h3]

/-- Claim C7: on an RSS document whose channel holds exactly three items
with non-empty link texts, `get_existing_links_from_feed` returns
exactly the set of those three link strings, whitespace-stripped; on a
path that does not exist it returns the empty set. -/
theorem get_existing_links_spec (s1 s2 s3 : String)
    (h1 : s1 ≠ "") (h2 : s2 ≠ "") (h3 : s3 ≠ "") :
    (∀ x, x ∈ get_existing_links_from_feed (some (rssThreeItems s1 s2 s3)) ↔
      (x = pyStrip s1 ∨ x = pyStrip s2 ∨ x = pyStrip s3)) ∧
    get_existing_links_from_feed none = [] := by
  refine ⟨fun x => ?_, rfl⟩
  rw [get_existing_links_rssThree s1 s2 s3 h1 h2 h3]
  simp only [mem_setInsert, List.not_mem_nil, or_false]
  tauto

/-- Witness for C7, at three concrete link texts. -/
theorem get_existing_links_spec_witness :
    (" https://a.example/1 " ≠ "" ∧ "https://a.example/2" ≠ "" ∧
      "https://a.example/3" ≠ "") ∧
    "https://a.example/1" ∈ get_existing_links_from_feed
      (some (rssThreeItems " https://a.example/1 " "https://a.example/2"
        "https://a.example/3")) ∧
    get_existing_links_from_feed none = [] := by
  refine ⟨⟨by decide, by decide, by decide⟩, ?_, ?_⟩
  · exact ((get_existing_links_spec " https://a.example/1 " "https://a.example/2"
      "https://a.example/3" (by decide) (by decide) (by decide)).1
      "https://a.example/1").mpr (Or.inl (by decide))
  · exact (get_existing_links_spec "x" "y" "z" (by decide) (by decide) (by decide)).2

/-! ### C6: malformed cards are dropped, well-formed cards kept -/

theorem newsLoop_all_validated (pyHash : String → Int) :
    ∀ (cards : List HNode) (seen : List String),
      ((newsLoop pyHash cards seen).1).all validate_article = true := by
  intro cards
  induction cards with
  | nil => intro seen; rfl
  | cons card rest ih =>
      intro seen
      simp only [newsLoop]
      split
      · exact ih seen
      · split
        · exact ih seen
        · split
          · exact ih seen
          · split
            · exact ih _
            · split
              next hval =>
                simp only [List.all_cons, Bool.and_eq_true]
                exact ⟨hval, ih _⟩
              next => exact ih _

/-- Claim C6: every record emitted by `parse_news_html` passes
`validate_article` (so a card yielding no title, a too-short title, or a
non-http link contributes no record — and the date slot is always
filled, by extraction or fallback, before validation); on a page with
one well-formed card and one card missing a title, exactly the
well-formed card's article is returned, for every process hash. -/
theorem news_extractor_validates_and_keeps_wellformed :
    (∀ (soup : HNode) (pyHash : String → Int),
      (parse_news_html soup pyHash).all validate_article = true) ∧
    (∀ pyHash : String → Int,
      parse_news_html newsMixedSoup pyHash = [newsGoodArticle]) := by
  exact ⟨fun soup pyHash => newsLoop_all_validated pyHash _ [],
    fun pyHash => rfl⟩

/-! ### C4: re-running extraction on identical HTML -/

theorem barronsLoop_static (clock1 clock2 : Nat → Int) :
    ∀ (cands : List (HNode × HNode)) (seen : List String) (k1 k2 : Nat),
      ((barronsLoop clock1 cands seen k1).1).map articleStatic =
        ((barronsLoop clock2 cands seen k2).1).map articleStatic := by
  intro cands
  induction cands with
  | nil => intros; rfl
  | cons hd rest ih =>
      intro seen k1 k2
      obtain ⟨lnk, par⟩ := hd
      simp only [barronsLoop]
      split
      · exact ih seen k1 k2
      · split
        · exact ih seen k1 k2
        · split
          · exact ih seen k1 k2
          · split
            · exact ih _ k1 k2
            · simp only [List.map_cons, articleStatic]
              exact congrArg (List.cons _) (ih _ (k1 + 1) (k2 + 1))

theorem noordLoop1_static (h1 h2 : String → Int) :
    ∀ (cands : List HNode) (seen : List String),
      ((noordLoop1 none h1 cands seen).1).map narticleStatic =
        ((noordLoop1 none h2 cands seen).1).map narticleStatic ∧
      (noordLoop1 none h1 cands seen).2 = (noordLoop1 none h2 cands seen).2 := by
  intro cands
  induction cands with
  | nil => intro seen; exact ⟨rfl, rfl⟩
  | cons article rest ih =>
      intro seen
      simp only [noordLoop1]
      repeat' split
      all_goals first
        | exact ih _
        | (refine ⟨?_, (ih _).2⟩
           simp only [List.map_cons, narticleStatic]
           exact congrArg (List.cons _) (ih _).1)

theorem noordLoop2_static (h1 h2 : String → Int) :
    ∀ (cands : List (HNode × HNode)) (seen : List String),
      ((noordLoop2 none h1 cands seen).1).map narticleStatic =
        ((noordLoop2 none h2 cands seen).1).map narticleStatic ∧
      (noordLoop2 none h1 cands seen).2 = (noordLoop2 none h2 cands seen).2 := by
  intro cands
  induction cands with
  | nil => intro seen; exact ⟨rfl, rfl⟩
  | cons hd rest ih =>
      intro seen
      obtain ⟨link_elem, parent⟩ := hd
      simp only [noordLoop2]
      repeat' split
      all_goals first
        | exact ih _
        | (refine ⟨?_, (ih _).2⟩
           simp only [List.map_cons, narticleStatic]
           exact congrArg (List.cons _) (ih _).1)

/-- Claim C4 (counterexample): the claim fails on `barrons.py`.  Its
`parse_articles` stamps `datetime.now(pytz.UTC)` as every record's
date, so two runs on identical HTML in which the wall clock has moved
(here: timestamps 0 versus 1) return different article lists. -/
theorem barrons_parse_two_runs_differ_cex :
    barrons_parse_articles barronsOneCardSoup (fun _ => 0) ≠
      barrons_parse_articles barronsOneCardSoup (fun _ => 1) := by decide

/-- Claim C4 (amended): re-running extraction on identical HTML yields
the same titles, links, descriptions, categories (and, for the
noordhollandsdagblad generator, article ids) in the same order; the
date fields need not coincide, because `barrons.py` stamps the current
time and `noordhollandsdagblad_alkmaar.py` falls back to the
process-hash-derived date.  (Shown for every pair of clocks, and for
every pair of process hashes with the driverless parse.) -/
theorem parse_rerun_static_fields_agree :
    (∀ (soup : HNode) (clock1 clock2 : Nat → Int),
      (barrons_parse_articles soup clock1).map articleStatic =
        (barrons_parse_articles soup clock2).map articleStatic) ∧
    (∀ (soup : HNode) (h1 h2 : String → Int),
      (noord_parse_articles soup none h1).map narticleStatic =
        (noord_parse_articles soup none h2).map narticleStatic) := by
  constructor
  · intro soup clock1 clock2
    exact barronsLoop_static clock1 clock2 _ [] 0 0
  · intro soup h1 h2
    simp only [noord_parse_articles, List.map_append]
    have r1 := noordLoop1_static h1 h2
      (selectIn ((removeFirstN (attrContains "id" "MEEST-GELEZEN") soup).1)
        (fun n => hasTag "article" n && hasAttr "data-article-id" n)) []
    have r2 := noordLoop2_static h1 h2
      (docSelectWithParent ((removeFirstN (attrContains "id" "MEEST-GELEZEN") soup).1)
        (fun n => hasTag "a" n && attrContains "href" "/regio/alkmaar/" n &&
          attrEndsWith "href" ".html" n))
      ((noordLoop1 none h1
        (selectIn ((removeFirstN (attrContains "id" "MEEST-GELEZEN") soup).1)
          (fun n => hasTag "article" n && hasAttr "data-article-id" n)) []).2)
    rw [r1.1, r1.2] at *
    rw [r2.1]

/-! ### C3: link uniqueness -/

/-- Step lemma for the shared dedup pattern: a record whose link was
checked against `seen` may be prepended to a block produced with
`lnkv :: seen`. -/
theorem invCons {α : Type} (lk : α → String) {a : α} {rest : List α}
    {seen seenOut : List String} {lnkv : String}
    (h82 : lk a = lnkv)
    (hn : ¬(seen.contains lnkv = true))
    (h1 : (rest.map lk).Nodup)
    (h2 : ∀ x ∈ rest, (lnkv :: seen).contains (lk x) = false)
    (h3 : ∀ x ∈ rest, seenOut.contains (lk x) = true)
    (h4 : ∀ s, (lnkv :: seen).contains s = true → seenOut.contains s = true) :
    ((a :: rest).map lk).Nodup ∧
      (∀ x ∈ a :: rest, seen.contains (lk x) = false) ∧
      (∀ x ∈ a :: rest, seenOut.contains (lk x) = true) ∧
      (∀ s, seen.contains s = true → seenOut.contains s = true) := by
  refine ⟨?_, ?_, ?_, fun s hs => h4 s ?_⟩
  · simp only [List.map_cons, List.nodup_cons]
    refine ⟨fun hmem => ?_, h1⟩
    obtain ⟨x, hx, hlk⟩ := List.mem_map.mp hmem
    have hfalse := h2 x hx
    rw [hlk, h82] at hfalse
    simp [List.contains] at hfalse
  · intro x hx
    rcases List.mem_cons.mp hx with rfl | hx2
    · rw [h82]
      exact eq_false_of_ne_true hn
    · have hfalse := h2 x hx2
      simp only [List.contains] at hfalse ⊢
      simp only [List.elem_cons] at hfalse
      revert hfalse
      split
      · intro h; exact absurd h (by simp)
      · exact id
  · intro x hx
    rcases List.mem_cons.mp hx with rfl | hx2
    · refine h4 _ ?_
      rw [h82]
      simp [List.contains]
    · exact h3 x hx2
  · simp only [List.contains, List.elem_cons] at *
    split
    · rfl
    · exact hs

/-- Skip lemma for the shared dedup pattern: a block produced with
`lnkv :: seen` also satisfies the invariant for `seen`. -/
theorem invSkip {α : Type} (lk : α → String) {out : List α}
    {seen seenOut : List String} {lnkv : String}
    (h1 : (out.map lk).Nodup)
    (h2 : ∀ x ∈ out, (lnkv :: seen).contains (lk x) = false)
    (h3 : ∀ x ∈ out, seenOut.contains (lk x) = true)
    (h4 : ∀ s, (lnkv :: seen).contains s = true → seenOut.contains s = true) :
    (out.map lk).Nodup ∧
      (∀ x ∈ out, seen.contains (lk x) = false) ∧
      (∀ x ∈ out, seenOut.contains (lk x) = true) ∧
      (∀ s, seen.contains s = true → seenOut.contains s = true) := by
  refine ⟨h1, ?_, h3, ?_⟩
  · intro x hx
    have hfalse := h2 x hx
    simp only [List.contains, List.elem_cons] at hfalse ⊢
    revert hfalse
    split
    · intro h; exact absurd h (by simp)
    · exact id
  · intro s hs
    refine h4 s ?_
    simp only [List.contains, List.elem_cons] at hs ⊢
    split
    · rfl
    · exact hs

theorem barronsLoop_links (clock : Nat → Int) :
    ∀ (cands : List (HNode × HNode)) (seen : List String) (k : Nat),
      (((barronsLoop clock cands seen k).1).map Article.link).Nodup ∧
      (∀ a ∈ (barronsLoop clock cands seen k).1,
        seen.contains a.link = false) ∧
      (∀ a ∈ (barronsLoop clock cands seen k).1,
        ((barronsLoop clock cands seen k).2).contains a.link = true) ∧
      (∀ s, seen.contains s = true →
        ((barronsLoop clock cands seen k).2).contains s = true) := by
  intro cands
  induction cands with
  | nil =>
      intro seen k
      exact ⟨by simp [barronsLoop], by simp [barronsLoop], by simp [barronsLoop],
        fun s hs => by simpa [barronsLoop] using hs⟩
  | cons hd rest ih =>
      intro seen k
      obtain ⟨lnk, par⟩ := hd
      simp only [barronsLoop]
      repeat' split
      all_goals first
        | exact ih _ _
        | exact invSkip Article.link (ih _ _).1 (ih _ _).2.1 (ih _ _).2.2.1
            (ih _ _).2.2.2
        | exact invCons Article.link rfl (by assumption) (ih _ _).1 (ih _ _).2.1
            (ih _ _).2.2.1 (ih _ _).2.2.2

theorem noordLoop1_links (driver : Option (String → Option PyDateTime))
    (pyHash : String → Int) :
    ∀ (cands : List HNode) (seen : List String),
      (((noordLoop1 driver pyHash cands seen).1).map NArticle.link).Nodup ∧
      (∀ a ∈ (noordLoop1 driver pyHash cands seen).1,
        seen.contains a.link = false) ∧
      (∀ a ∈ (noordLoop1 driver pyHash cands seen).1,
        ((noordLoop1 driver pyHash cands seen).2).contains a.link = true) ∧
      (∀ s, seen.contains s = true →
        ((noordLoop1 driver pyHash cands seen).2).contains s = true) := by
  intro cands
  induction cands with
  | nil =>
      intro seen
      exact ⟨by simp [noordLoop1], by simp [noordLoop1], by simp [noordLoop1],
        fun s hs => by simpa [noordLoop1] using hs⟩
  | cons article rest ih =>
      intro seen
      simp only [noordLoop1]
      repeat' split
      all_goals first
        | exact ih _
        | exact invSkip NArticle.link (ih _).1 (ih _).2.1 (ih _).2.2.1 (ih _).2.2.2
        | exact invCons NArticle.link rfl (by assumption) (ih _).1 (ih _).2.1
            (ih _).2.2.1 (ih _).2.2.2

set_option maxHeartbeats 2000000 in
theorem noordLoop2_links (driver : Option (String → Option PyDateTime))
    (pyHash : String → Int) :
    ∀ (cands : List (HNode × HNode)) (seen : List String),
      (((noordLoop2 driver pyHash cands seen).1).map NArticle.link).Nodup ∧
      (∀ a ∈ (noordLoop2 driver pyHash cands seen).1,
        seen.contains a.link = false) ∧
      (∀ a ∈ (noordLoop2 driver pyHash cands seen).1,
        ((noordLoop2 driver pyHash cands seen).2).contains a.link = true) ∧
      (∀ s, seen.contains s = true →
        ((noordLoop2 driver pyHash cands seen).2).contains s = true) := by
  intro cands
  induction cands with
  | nil =>
      intro seen
      exact ⟨by simp [noordLoop2], by simp [noordLoop2], by simp [noordLoop2],
        fun s hs => by simpa [noordLoop2] using hs⟩
  | cons hd rest ih =>
      intro seen
      obtain ⟨link_elem, parent⟩ := hd
      simp only [noordLoop2]
      repeat' split
      all_goals first
        | exact ih _
        | exact invSkip NArticle.link (ih _).1 (ih _).2.1 (ih _).2.2.1 (ih _).2.2.2
        | exact invCons NArticle.link rfl (by assumption) (ih _).1 (ih _).2.1
            (ih _).2.2.1 (ih _).2.2.2

theorem newsLoop_links (pyHash : String → Int) :
    ∀ (cards : List HNode) (seen : List String),
      (((newsLoop pyHash cards seen).1).map Article.link).Nodup ∧
      (∀ a ∈ (newsLoop pyHash cards seen).1, seen.contains a.link = false) ∧
      (∀ a ∈ (newsLoop pyHash cards seen).1,
        ((newsLoop pyHash cards seen).2).contains a.link = true) ∧
      (∀ s, seen.contains s = true →
        ((newsLoop pyHash cards seen).2).contains s = true) := by
  intro cards
  induction cards with
  | nil =>
      intro seen
      exact ⟨by simp [newsLoop], by simp [newsLoop], by simp [newsLoop],
        fun s hs => by simpa [newsLoop] using hs⟩
  | cons card rest ih =>
      intro seen
      simp only [newsLoop]
      repeat' split
      all_goals first
        | exact ih _
        | exact invSkip Article.link (ih _).1 (ih _).2.1 (ih _).2.2.1 (ih _).2.2.2
        | exact invCons Article.link rfl (by assumption) (ih _).1 (ih _).2.1
            (ih _).2.2.1 (ih _).2.2.2

theorem mergeNewLoop_inv :
    ∀ (new_posts : List Post) (urls : List String),
      (((mergeNewLoop new_posts urls).map Post.url).Nodup) ∧
      (∀ p ∈ mergeNewLoop new_posts urls, urls.contains p.url = false) := by
  intro new_posts
  induction new_posts with
  | nil => intro urls; exact ⟨List.nodup_nil, by simp [mergeNewLoop]⟩
  | cons p rest ih =>
      intro urls
      simp only [mergeNewLoop]
      split
      · exact ih urls
      next hn =>
        refine ⟨?_, ?_⟩
        · simp only [List.map_cons, List.nodup_cons]
          refine ⟨fun hmem => ?_, (ih _).1⟩
          obtain ⟨x, hx, hlk⟩ := List.mem_map.mp hmem
          have hfalse := (ih (p.url :: urls)).2 x hx
          rw [hlk] at hfalse
          simp [List.contains] at hfalse
        · intro x hx
          rcases List.mem_cons.mp hx with rfl | hx2
          · exact eq_false_of_ne_true (by simpa using hn)
          · have hfalse := (ih (p.url :: urls)).2 x hx2
            simp only [List.contains, List.elem_cons] at hfalse ⊢
            revert hfalse
            split
            · intro h; exact absurd h (by simp)
            · exact id

/-- Claim C3: the parse step of `barrons.py` and of
`noordhollandsdagblad_alkmaar.py` never emits two records with the same
link, on every HTML input (every clock, driver and process hash); and
`merge_posts` of `archive/cursor_blog.py` emits no two posts with the
same url whenever the cached posts it merges into are url-distinct (as
every cache written by this script is). -/
theorem parse_outputs_link_unique :
    (∀ (soup : HNode) (clock : Nat → Int),
      ((barrons_parse_articles soup clock).map Article.link).Nodup) ∧
    (∀ (soup : HNode) (driver : Option (String → Option PyDateTime))
        (pyHash : String → Int),
      ((noord_parse_articles soup driver pyHash).map NArticle.link).Nodup) ∧
    (∀ (new_posts cached_posts : List Post),
      (cached_posts.map Post.url).Nodup →
        ((merge_posts new_posts cached_posts).map Post.url).Nodup) := by
  refine ⟨fun soup clock => (barronsLoop_links clock _ [] 0).1,
    fun soup driver pyHash => ?_, fun new_posts cached_posts hnd => ?_⟩
  · simp only [noord_parse_articles, List.map_append]
    have L1 := noordLoop1_links driver pyHash
      (selectIn ((removeFirstN (attrContains "id" "MEEST-GELEZEN") soup).1)
        (fun n => hasTag "article" n && hasAttr "data-article-id" n)) []
    have L2 := noordLoop2_links driver pyHash
      (docSelectWithParent ((removeFirstN (attrContains "id" "MEEST-GELEZEN") soup).1)
        (fun n => hasTag "a" n && attrContains "href" "/regio/alkmaar/" n &&
          attrEndsWith "href" ".html" n))
      ((noordLoop1 driver pyHash
        (selectIn ((removeFirstN (attrContains "id" "MEEST-GELEZEN") soup).1)
          (fun n => hasTag "article" n && hasAttr "data-article-id" n)) []).2)
    refine List.Nodup.append L1.1 L2.1 ?_
    intro x hx1 hx2
    obtain ⟨a, ha, halk⟩ := List.mem_map.mp hx1
    obtain ⟨b, hb, hblk⟩ := List.mem_map.mp hx2
    have hTrue := L1.2.2.1 a ha
    have hFalse := L2.2.1 b hb
    rw [halk] at hTrue
    rw [hblk] at hFalse
    rw [hFalse] at hTrue
    exact absurd hTrue (by simp)
  · have M := mergeNewLoop_inv new_posts (cached_posts.map Post.url)
    have hmerged :
        ((cached_posts ++ mergeNewLoop new_posts (cached_posts.map Post.url)).map
          Post.url).Nodup := by
      rw [List.map_append]
      refine List.Nodup.append hnd M.1 ?_
      intro x hx1 hx2
      obtain ⟨p, hp, hpl⟩ := List.mem_map.mp hx2
      have hqf := M.2 p hp
      rw [hpl] at hqf
      have hc := List.elem_eq_true_of_mem hx1
      simp only [List.contains] at hqf
      rw [hc] at hqf
      exact absurd hqf (by simp)
    have hperm :=
      (List.perm_insertionSort cursorDateGE
        (cached_posts ++ mergeNewLoop new_posts (cached_posts.map Post.url))).map
        Post.url
    exact ((hperm.nodup_iff).mpr hmerged)

/-- Witness for C3, at concrete inputs: the two-card Barron's homepage,
a concrete noordhollandsdagblad page, and a one-element cache. -/
theorem parse_outputs_link_unique_witness :
    ((barrons_parse_articles barronsTwoCardSoup (fun k => (k : Int))).map
      Article.link).Nodup ∧
    (([Post.mk "u1" "t1" "intro" "2025-03-01" "news"].map Post.url).Nodup) ∧
    ((merge_posts [Post.mk "u2" "t2" "intro" "2025-02-01" "news"]
      [Post.mk "u1" "t1" "intro" "2025-03-01" "news"]).map Post.url).Nodup := by
  refine ⟨parse_outputs_link_unique.1 barronsTwoCardSoup (fun k => (k : Int)),
    by decide, parse_outputs_link_unique.2.2 _ _ (by decide)⟩
